import Mathlib

/-
Verification development for the axle kernel pipe subsystem
(src/kernel/util/multitasking/pipe.c).

The C code is embedded shallowly: pointer-shared pipe_t and circular_buffer
objects get identity through explicit heaps indexed by Nat, the per-process
state is the slice of task_t that pipe.c touches, and every operation is a
pure function from a system state (plus the caller pid standing for getpid())
to a result and a new system state.  C char values are modelled as Int (the
signed char value), so the stdio EOF sentinel is the value -1.
-/

set_option maxHeartbeats 1000000

namespace Axle

/-- Modelled from the spec: the designated in-band end-of-stream sentinel byte
(the EOF constant of the reference C library, whose header is not among the
sources under study); its value is the C stdio value -1, which as a signed
char is the byte 0xFF. -/
def EOF : Int := -1

/-- Endpoint direction, as used by pipe.c (READ / WRITE). -/
inductive Direction where
  | READ
  | WRITE
deriving DecidableEq

/-- Modelled from the spec (section 4.1): the fixed-capacity FIFO ring buffer
(circular_buffer), whose implementation is not among the sources under study.
`data` lists the buffered bytes front first, `count` is `data.length`, push
appends at the back, pop removes at the front, and capacity is fixed at
construction. -/
structure circular_buffer where
  capacity : Nat
  data : List Int
deriving DecidableEq

/-- The buffer occupancy (the `count` field read by pipe.c). -/
def circular_buffer.count (cb : circular_buffer) : Nat := cb.data.length

/-- Modelled from the spec (section 4.1): push one byte at the back.  pipe.c
tests count = capacity itself before every push, so the unguarded append is
only reached on a non-full buffer. -/
def cb_push_back (cb : circular_buffer) (b : Int) : circular_buffer :=
  { cb with data := cb.data ++ [b] }

/-- Modelled from the spec (section 4.1): pop one byte from the front.  pipe.c
tests count = 0 itself before every pop, so the empty case is unreachable from
pipe.c (a junk 0 is returned there). -/
def cb_pop_front (cb : circular_buffer) : Int × circular_buffer :=
  match cb.data with
  | [] => (0, cb)
  | b :: rest => (b, { cb with data := rest })

/-- pipe_t from pipe.c: direction, per-process descriptor id, the owner pid
list (the `pids` array_m), and the shared circular_buffer, represented by its
index into the buffer heap of the system state (pointer sharing). -/
structure pipe_t where
  dir : Direction
  fd : Nat
  pids : List Nat
  cb : Nat
deriving DecidableEq

/-- The slice of task_t that pipe.c uses: the pid, the fd_max counter, the
`pipes` registry (an array_m of pipe_t pointers, represented by pipe-heap
indices) and that registry's fixed max_size. -/
structure task_t where
  pid : Nat
  fd_max : Nat
  pipes : List Nat
  pipes_max_size : Nat
deriving DecidableEq

/-- Kernel state visible to pipe.c: the task list plus two heaps giving
identity to the pointer-shared pipe_t and circular_buffer objects; a `none`
entry is freed storage. -/
structure SysState where
  tasks : List task_t
  pipeHeap : List (Option pipe_t)
  bufHeap : List (Option circular_buffer)
deriving DecidableEq

/-- task_with_pid: first task with the given pid. -/
def tasks_find : List task_t → Nat → Option task_t
  | [], _ => none
  | t :: rest, pid => if t.pid = pid then some t else tasks_find rest pid

/-- task_with_pid(getpid()) as used throughout pipe.c. -/
def task_with_pid (s : SysState) (pid : Nat) : Option task_t :=
  tasks_find s.tasks pid

/-- In-place mutation of the (first) task with the given pid. -/
def tasks_update : List task_t → Nat → task_t → List task_t
  | [], _, _ => []
  | t :: rest, pid, t' => if t.pid = pid then t' :: rest else t :: tasks_update rest pid t'

/-- State after mutating the current task object. -/
def updateTask (s : SysState) (pid : Nat) (t' : task_t) : SysState :=
  { s with tasks := tasks_update s.tasks pid t' }

/-- Store through a circular_buffer pointer (`none` models freed storage). -/
def setBuf (s : SysState) (i : Nat) (b : Option circular_buffer) : SysState :=
  { s with bufHeap := s.bufHeap.set i b }

/-- Store through a pipe_t pointer (`none` models freed storage). -/
def setPipe (s : SysState) (i : Nat) (p : Option pipe_t) : SysState :=
  { s with pipeHeap := s.pipeHeap.set i p }

/-- The scan loop of find_pipe: walk the registry in order and return the
first pipe whose fd matches, together with its heap index (the pointer).  A
dangling registry entry is skipped (the C code would dereference freed
memory there; no reachable state used below contains one). -/
def find_pipe_go (s : SysState) (fd : Nat) : List Nat → Option (Nat × pipe_t)
  | [] => none
  | i :: rest =>
    match s.pipeHeap.getD i none with
    | some p => if p.fd = fd then some (i, p) else find_pipe_go s fd rest
    | none => find_pipe_go s fd rest

/-- find_pipe from pipe.c: resolve a descriptor through the current process's
pipe registry by linear scan, first match. -/
def find_pipe (s : SysState) (pid fd : Nat) : Option (Nat × pipe_t) :=
  match task_with_pid s pid with
  | none => none
  | some t => find_pipe_go s fd t.pipes

/-- Outcome of pipe_read / pipe_write.  `ok` carries the C return payload; the
error alternatives record which of the distinct -1 error branches of pipe.c
was taken (descriptor not found vs wrong direction); `useAfterFree` marks the
undefined behavior of dereferencing a freed buffer. -/
inductive RW (α : Type) where
  | ok : α → RW α
  | invalidDescriptor : RW α
  | wrongDirection : RW α
  | useAfterFree : RW α
deriving DecidableEq

/-- Outcome of pipe_close, one alternative per return in pipe.c; `badState`
marks a task_with_pid failure that the C code would crash on. -/
inductive CloseResult where
  | ok
  | invalidDescriptor
  | notOwned
  | notRegistered
  | badState
deriving DecidableEq

/-- The read loop of pipe_read (pipe.c lines 88-104), including its EOF
handling exactly as written: popping a byte equal to EOF decrements the loop
index before breaking.  Returns the final value of `i` (an Int, since the
decrement can drive it to -1), the list of bytes stored into buf cells 0,1,...
in order, and the drained buffer. -/
def read_loop (cb : circular_buffer) : Nat → Int × List Int × circular_buffer
  | 0 => (0, [], cb)
  | n + 1 =>
    if cb.count = 0 then (0, [], cb)
    else
      let b := (cb_pop_front cb).1
      let cb' := (cb_pop_front cb).2
      if b = EOF then (-1, [b], cb')
      else
        ((read_loop cb' n).1 + 1, b :: (read_loop cb' n).2.1, (read_loop cb' n).2.2)

/-- pipe_read from pipe.c.  On success the payload is the C return value
(the final `i`, possibly -1 when the first popped byte is EOF) paired with
the caller-visible bytes: the C code stores the terminator at buf[i] after
the loop, so the caller sees the first i stored bytes (and none when i is
negative, where the C code additionally writes out of bounds at buf[-1]). -/
def pipe_read (s : SysState) (pid fd : Nat) (count : Nat) :
    RW (Int × List Int) × SysState :=
  match find_pipe s pid fd with
  | none => (RW.invalidDescriptor, s)
  | some (_, p) =>
    if p.dir ≠ Direction.READ then (RW.wrongDirection, s)
    else
      match s.bufHeap.getD p.cb none with
      | none => (RW.useAfterFree, s)
      | some cb =>
        (RW.ok ((read_loop cb count).1,
                (read_loop cb count).2.1.take (read_loop cb count).1.toNat),
         setBuf s p.cb (some (read_loop cb count).2.2))

/-- The write loop of pipe_write (pipe.c lines 124-131): push bytes one at a
time, stopping early when the buffer is full; returns the number pushed and
the new buffer. -/
def write_loop (cb : circular_buffer) : List Int → Nat × circular_buffer
  | [] => (0, cb)
  | b :: rest =>
    if cb.count = cb.capacity then (0, cb)
    else
      ((write_loop (cb_push_back cb b) rest).1 + 1,
       (write_loop (cb_push_back cb b) rest).2)

/-- pipe_write from pipe.c: resolve the descriptor, check the direction, then
push bytes until done or full, returning the short-write count. -/
def pipe_write (s : SysState) (pid fd : Nat) (bytes : List Int) :
    RW Nat × SysState :=
  match find_pipe s pid fd with
  | none => (RW.invalidDescriptor, s)
  | some (_, p) =>
    if p.dir ≠ Direction.WRITE then (RW.wrongDirection, s)
    else
      match s.bufHeap.getD p.cb none with
      | none => (RW.useAfterFree, s)
      | some cb =>
        (RW.ok (write_loop cb bytes).1,
         setBuf s p.cb (some (write_loop cb bytes).2))

/-- pipe_create from pipe.c: allocate the READ endpoint (fd = fd_max, then
increment), the WRITE endpoint (next fd), one shared circular_buffer of
capacity 64 and element width 1, each endpoint owned by the current pid only.
Returns ((readPtr, readFd), (writePtr, writeFd)) and the new state. -/
def pipe_create (s : SysState) (pid : Nat) :
    ((Nat × Nat) × (Nat × Nat)) × SysState :=
  match task_with_pid s pid with
  | none => (((0, 0), (0, 0)), s)
  | some current =>
    let rId := s.pipeHeap.length
    let wId := rId + 1
    let bId := s.bufHeap.length
    let r : pipe_t := ⟨Direction.READ, current.fd_max, [pid], bId⟩
    let w : pipe_t := ⟨Direction.WRITE, current.fd_max + 1, [pid], bId⟩
    let s1 := updateTask s pid { current with fd_max := current.fd_max + 2 }
    let s2 := { s1 with
      pipeHeap := s1.pipeHeap ++ [some r, some w],
      bufHeap := s1.bufHeap ++ [some ⟨64, []⟩] }
    (((rId, r.fd), (wId, w.fd)), s2)

/-- pipe from pipe.c (the syscall-facing entry): create both endpoints, hand
the descriptor pair to the caller, then append both endpoints to the current
process's registry; if appending would exceed the registry's max_size the C
code hits an unconditional ASSERT abort, modelled as a `none` result with the
registry left untouched. -/
def pipe (s : SysState) (pid : Nat) : Option (Nat × Nat) × SysState :=
  match task_with_pid s pid with
  | none => (none, s)
  | some _ =>
    let res := pipe_create s pid
    let rId := res.1.1.1
    let rFd := res.1.1.2
    let wId := res.1.2.1
    let wFd := res.1.2.2
    let s1 := res.2
    match task_with_pid s1 pid with
    | none => (none, s1)
    | some current =>
      if current.pipes.length + 1 ≥ current.pipes_max_size then
        (none, s1)
      else
        (some (rFd, wFd),
         updateTask s1 pid { current with pipes := current.pipes ++ [rId, wId] })

/-- The bookkeeping tail of pipe_close (pipe.c lines 159-191), entered with
the pipe pointer resolved: remove the pid from the endpoint's owner list,
remove the endpoint from the process registry, and, when the owner list is
now empty, tear the endpoint down, freeing the shared buffer only for a READ
endpoint.  The pipe object is re-read through its pointer since earlier steps
act through the same heap. -/
def pipe_close_rest (s : SysState) (pid pi : Nat) : CloseResult × SysState :=
  match s.pipeHeap.getD pi none, task_with_pid s pid with
  | some p, some current =>
    if pid ∈ p.pids then
      let p' := { p with pids := p.pids.erase pid }
      let s2 := setPipe s pi (some p')
      if pi ∈ current.pipes then
        let s3 := updateTask s2 pid { current with pipes := current.pipes.erase pi }
        if p'.pids ≠ [] then
          (CloseResult.ok, s3)
        else
          let s4 := if p'.dir = Direction.READ then setBuf s3 p'.cb none else s3
          (CloseResult.ok, setPipe s4 pi none)
      else (CloseResult.notRegistered, s2)
    else (CloseResult.notOwned, s)
  | _, _ => (CloseResult.badState, s)

/-- pipe_close from pipe.c: resolve the descriptor; if the endpoint is a WRITE
endpoint and the current process's registry holds exactly one entry, write the
EOF sentinel through the ordinary pipe_write path (its short-write count is
discarded) before any bookkeeping; then run the bookkeeping tail. -/
def pipe_close (s : SysState) (pid fd : Nat) : CloseResult × SysState :=
  match find_pipe s pid fd with
  | none => (CloseResult.invalidDescriptor, s)
  | some (pi, p) =>
    match task_with_pid s pid with
    | none => (CloseResult.badState, s)
    | some current =>
      let s1 :=
        if p.dir = Direction.WRITE ∧ current.pipes.length = 1 then
          (pipe_write s pid fd [EOF]).2
        else s
      pipe_close_rest s1 pid pi

/-- The bookkeeping state of pipe_close after both removals (pid dropped from
the owner list through the pipe pointer, endpoint dropped from the registry),
before any teardown; a restatement of the corresponding steps of
pipe_close_rest used to phrase its characterization lemma. -/
def closeBookkeep (s1 : SysState) (pid i : Nat) (p : pipe_t) (t : task_t) : SysState :=
  updateTask (setPipe s1 i (some { p with pids := p.pids.erase pid }))
    pid { t with pipes := t.pipes.erase i }

/-- The final state of a successful pipe_close_rest: bookkeeping, then, when
the owner list became empty, the teardown that frees the buffer only for a
READ endpoint and then frees the endpoint; a restatement of pipe_close_rest
used to phrase its characterization lemma. -/
def closeTeardown (s1 : SysState) (pid i : Nat) (p : pipe_t) (t : task_t) : SysState :=
  if p.pids.erase pid = [] then
    setPipe (if p.dir = Direction.READ
             then setBuf (closeBookkeep s1 pid i p t) p.cb none
             else closeBookkeep s1 pid i p t) i none
  else closeBookkeep s1 pid i p t

/-- The final state of a successful pipe_close: the sentinel write when the
endpoint is a WRITE endpoint and the registry has exactly one entry, then
bookkeeping and teardown. -/
def closeFinal (s : SysState) (pid fd i : Nat) (p : pipe_t) (t : task_t) : SysState :=
  closeTeardown
    (if p.dir = Direction.WRITE ∧ t.pipes.length = 1
     then (pipe_write s pid fd [EOF]).2 else s) pid i p t

/-! ### Concrete states used to instantiate the theorems -/

/-- A fresh single-task state: pid 0, no pipes yet, registry capacity 8. -/
def state0 : SysState := ⟨[⟨0, 0, [], 8⟩], [], []⟩

/-- The state right after `pipe state0 0`, which returns descriptors (0, 1). -/
def stateFresh : SysState := (pipe state0 0).2

/-- One task owning a READ endpoint (fd 3) and a WRITE endpoint (fd 4) that
share buffer 0. -/
def stateTwoEnds : SysState :=
  ⟨[⟨0, 9, [0, 1], 10⟩],
   [some ⟨Direction.READ, 3, [0], 0⟩, some ⟨Direction.WRITE, 4, [0], 0⟩],
   [some ⟨64, []⟩]⟩

/-- The closing task's registry holds only the WRITE endpoint (fd 4); the
shared buffer holds one byte. -/
def stateLastWriter : SysState :=
  ⟨[⟨0, 9, [1], 10⟩],
   [some ⟨Direction.READ, 3, [0], 0⟩, some ⟨Direction.WRITE, 4, [0], 0⟩],
   [some ⟨64, [7]⟩]⟩

/-- Like stateLastWriter, but the shared buffer (capacity 2) is full. -/
def stateFullWriter : SysState :=
  ⟨[⟨0, 9, [1], 10⟩],
   [some ⟨Direction.READ, 3, [0], 0⟩, some ⟨Direction.WRITE, 4, [0], 0⟩],
   [some ⟨2, [7, 8]⟩]⟩

/-- A WRITE endpoint (fd 5) owned by the two processes 0 and 1; each process
registry holds just this endpoint. -/
def stateShared : SysState :=
  ⟨[⟨0, 9, [0], 10⟩, ⟨1, 9, [0], 10⟩],
   [some ⟨Direction.WRITE, 5, [0, 1], 0⟩],
   [some ⟨64, []⟩]⟩

/-- A pipe object owned by pid 0 in the heap while pid 0's registry does not
list it: the configuration that drives the notRegistered branch of the close
bookkeeping. -/
def stateOrphan : SysState :=
  ⟨[⟨0, 9, [], 10⟩],
   [some ⟨Direction.WRITE, 4, [0, 1], 0⟩],
   [some ⟨64, []⟩]⟩

/-- A task whose registry (capacity 3) already holds 2 endpoints, so a
further create would overflow it. -/
def stateFullRegistry : SysState :=
  ⟨[⟨0, 4, [0, 1], 3⟩],
   [some ⟨Direction.READ, 0, [0], 0⟩, some ⟨Direction.WRITE, 1, [0], 0⟩],
   [some ⟨64, []⟩]⟩

/-- A READ endpoint (fd 3) whose buffer holds the bytes 97, 98 and then the
EOF sentinel. -/
def stateReadBug : SysState :=
  ⟨[⟨0, 9, [0], 10⟩], [some ⟨Direction.READ, 3, [0], 0⟩],
   [some ⟨64, [97, 98, EOF]⟩]⟩

/-- A READ endpoint (fd 3) whose buffer holds the EOF sentinel as its first
byte. -/
def stateReadBugEofFirst : SysState :=
  ⟨[⟨0, 9, [0], 10⟩], [some ⟨Direction.READ, 3, [0], 0⟩],
   [some ⟨64, [EOF]⟩]⟩

/-! ## Basic state lemmas -/

@[simp]
theorem setBuf_tasks (s : SysState) (i : Nat) (b : Option circular_buffer) :
    (setBuf s i b).tasks = s.tasks := rfl

@[simp]
theorem setBuf_pipeHeap (s : SysState) (i : Nat) (b : Option circular_buffer) :
    (setBuf s i b).pipeHeap = s.pipeHeap := rfl

@[simp]
theorem setPipe_tasks (s : SysState) (i : Nat) (p : Option pipe_t) :
    (setPipe s i p).tasks = s.tasks := rfl

@[simp]
theorem setPipe_bufHeap (s : SysState) (i : Nat) (p : Option pipe_t) :
    (setPipe s i p).bufHeap = s.bufHeap := rfl

@[simp]
theorem updateTask_pipeHeap (s : SysState) (pid : Nat) (t : task_t) :
    (updateTask s pid t).pipeHeap = s.pipeHeap := rfl

@[simp]
theorem updateTask_bufHeap (s : SysState) (pid : Nat) (t : task_t) :
    (updateTask s pid t).bufHeap = s.bufHeap := rfl

theorem task_with_pid_congr (s s' : SysState) (pid : Nat)
    (h : s'.tasks = s.tasks) : task_with_pid s' pid = task_with_pid s pid := by
  unfold task_with_pid
  rw [h]

theorem find_pipe_go_congr (s s' : SysState) (fd : Nat)
    (h : s'.pipeHeap = s.pipeHeap) (l : List Nat) :
    find_pipe_go s' fd l = find_pipe_go s fd l := by
  induction l with
  | nil => rfl
  | cons i rest ih => simp only [find_pipe_go, h, ih]

theorem find_pipe_congr (s s' : SysState) (pid fd : Nat)
    (ht : s'.tasks = s.tasks) (hp : s'.pipeHeap = s.pipeHeap) :
    find_pipe s' pid fd = find_pipe s pid fd := by
  unfold find_pipe
  rw [task_with_pid_congr s s' pid ht]
  cases task_with_pid s pid with
  | none => rfl
  | some t => exact find_pipe_go_congr s s' fd hp t.pipes

theorem tasks_find_update (l : List task_t) (pid : Nat) (t t' : task_t)
    (h : tasks_find l pid = some t) (h' : t'.pid = pid) :
    tasks_find (tasks_update l pid t') pid = some t' := by
  induction l with
  | nil => simp [tasks_find] at h
  | cons a rest ih =>
    by_cases ha : a.pid = pid
    · simp only [tasks_update, if_pos ha, tasks_find, if_pos h']
    · simp only [tasks_find, if_neg ha] at h
      simp only [tasks_update, if_neg ha, tasks_find, if_neg ha]
      exact ih h

theorem task_with_pid_updateTask (s : SysState) (pid : Nat) (t t' : task_t)
    (h : task_with_pid s pid = some t) (h' : t'.pid = pid) :
    task_with_pid (updateTask s pid t') pid = some t' :=
  tasks_find_update s.tasks pid t t' h h'

theorem find_pipe_go_sound (s : SysState) (fd : Nat) (l : List Nat)
    (i : Nat) (p : pipe_t) (h : find_pipe_go s fd l = some (i, p)) :
    i ∈ l ∧ s.pipeHeap.getD i none = some p ∧ p.fd = fd := by
  induction l with
  | nil => simp [find_pipe_go] at h
  | cons j rest ih =>
    cases hj : s.pipeHeap.getD j none with
    | none =>
      simp only [find_pipe_go, hj] at h
      rcases ih h with ⟨hm, hg, hf⟩
      exact ⟨List.mem_cons_of_mem j hm, hg, hf⟩
    | some q =>
      simp only [find_pipe_go, hj] at h
      by_cases hfd : q.fd = fd
      · rw [if_pos hfd] at h
        simp only [Option.some.injEq, Prod.mk.injEq] at h
        obtain ⟨h1, h2⟩ := h
        subst h1
        subst h2
        exact ⟨List.mem_cons_self j rest, hj, hfd⟩
      · rw [if_neg hfd] at h
        rcases ih h with ⟨hm, hg, hf⟩
        exact ⟨List.mem_cons_of_mem j hm, hg, hf⟩

theorem find_pipe_sound (s : SysState) (pid fd : Nat) (i : Nat) (p : pipe_t)
    (t : task_t) (h : find_pipe s pid fd = some (i, p))
    (ht : task_with_pid s pid = some t) :
    i ∈ t.pipes ∧ s.pipeHeap.getD i none = some p ∧ p.fd = fd := by
  unfold find_pipe at h
  rw [ht] at h
  exact find_pipe_go_sound s fd t.pipes i p h

theorem getD_none_lt {α : Type} (l : List (Option α)) (i : Nat) (x : α)
    (h : l.getD i none = some x) : i < l.length := by
  by_contra hge
  rw [List.getD_eq_default l none (Nat.le_of_not_lt hge)] at h
  exact Option.noConfusion h

theorem getD_set_self {α : Type} (l : List (Option α)) (i : Nat)
    (x : Option α) (h : i < l.length) : (l.set i x).getD i none = x := by
  induction l generalizing i with
  | nil => simp at h
  | cons a rest ih =>
    cases i with
    | zero => rfl
    | succ n =>
      have hn : n < rest.length := by simpa using h
      simpa [List.set, List.getD] using ih n hn

/-! ## Loop characterizations -/

theorem write_loop_full (cb : circular_buffer) (l : List Int)
    (h : cb.count = cb.capacity) : write_loop cb l = (0, cb) := by
  cases l with
  | nil => rfl
  | cons b rest => simp only [write_loop, if_pos h]

theorem write_loop_eq (l : List Int) (cb : circular_buffer)
    (h : cb.count ≤ cb.capacity) :
    write_loop cb l =
      (min (cb.capacity - cb.count) l.length,
       { cb with data := cb.data ++ l.take (cb.capacity - cb.count) }) := by
  induction l generalizing cb with
  | nil =>
    simp [write_loop]
  | cons b rest ih =>
    by_cases hfull : cb.count = cb.capacity
    · rw [write_loop_full cb (b :: rest) hfull, hfull]
      simp
    · have hlt : cb.count < cb.capacity := Nat.lt_of_le_of_ne h hfull
      have hcount : (cb_push_back cb b).count = cb.count + 1 := by
        simp [cb_push_back, circular_buffer.count]
      have hcap : (cb_push_back cb b).capacity = cb.capacity := rfl
      have hrec := ih (cb_push_back cb b)
        (by rw [hcount, hcap]; exact hlt)
      have e1 : (cb_push_back cb b).capacity - (cb_push_back cb b).count
          = cb.capacity - cb.count - 1 := by
        rw [hcount, hcap]
        omega
      have e2 : min ((cb.capacity - cb.count) - 1) rest.length + 1
          = min (cb.capacity - cb.count) (rest.length + 1) := by
        omega
      have e3 : (b :: rest).take (cb.capacity - cb.count)
          = b :: rest.take (cb.capacity - cb.count - 1) := by
        obtain ⟨m, hm⟩ : ∃ m, cb.capacity - cb.count = m + 1 :=
          ⟨cb.capacity - cb.count - 1, by omega⟩
        rw [hm]
        rfl
      have hdata : (cb_push_back cb b).data = cb.data ++ [b] := rfl
      rw [e1, hcap, hdata] at hrec
      simp only [write_loop, if_neg hfull, hrec, Prod.mk.injEq]
      refine ⟨?_, ?_⟩
      · rw [List.length_cons, e2]
      · rw [e3, List.append_assoc, List.singleton_append]

theorem read_loop_no_eof (cap : Nat) (l : List Int) (h : EOF ∉ l) :
    read_loop ⟨cap, l⟩ l.length = ((l.length : Int), l, ⟨cap, []⟩) := by
  induction l with
  | nil => rfl
  | cons b rest ih =>
    have hb : b ≠ EOF := fun hb => h (hb ▸ List.mem_cons_self b rest)
    have hrest : EOF ∉ rest := fun hr => h (List.mem_cons_of_mem b hr)
    have hcount : (⟨cap, b :: rest⟩ : circular_buffer).count = rest.length + 1 := by
      simp [circular_buffer.count]
    simp only [List.length_cons, read_loop, hcount, cb_pop_front,
      Nat.succ_ne_zero, if_false, if_neg hb, ih hrest, Prod.mk.injEq]
    trivial

/-! ## Operation characterizations -/

theorem tasks_find_pid (l : List task_t) (pid : Nat) (t : task_t)
    (h : tasks_find l pid = some t) : t.pid = pid := by
  induction l with
  | nil => simp [tasks_find] at h
  | cons a rest ih =>
    by_cases ha : a.pid = pid
    · simp only [tasks_find, if_pos ha, Option.some.injEq] at h
      rw [← h]
      exact ha
    · simp only [tasks_find, if_neg ha] at h
      exact ih h

theorem task_with_pid_pid (s : SysState) (pid : Nat) (t : task_t)
    (h : task_with_pid s pid = some t) : t.pid = pid :=
  tasks_find_pid s.tasks pid t h

theorem length_one_mem (l : List Nat) (i : Nat) (h : l.length = 1)
    (hm : i ∈ l) : l = [i] := by
  cases l with
  | nil => simp at hm
  | cons a rest =>
    cases rest with
    | nil =>
      rcases List.mem_singleton.mp hm with rfl
      rfl
    | cons b r2 => simp at h

theorem pipe_write_ok (s : SysState) (pid fd : Nat) (bytes : List Int)
    (i : Nat) (p : pipe_t) (cb : circular_buffer)
    (h1 : find_pipe s pid fd = some (i, p)) (h2 : p.dir = Direction.WRITE)
    (h6 : s.bufHeap.getD p.cb none = some cb) :
    pipe_write s pid fd bytes =
      (RW.ok (write_loop cb bytes).1,
       setBuf s p.cb (some (write_loop cb bytes).2)) := by
  unfold pipe_write
  rw [h1]
  simp only [h2, ne_eq, not_true_eq_false, if_false, h6]

theorem pipe_write_wrongdir (s : SysState) (pid fd : Nat) (bytes : List Int)
    (i : Nat) (p : pipe_t)
    (h1 : find_pipe s pid fd = some (i, p)) (h2 : p.dir ≠ Direction.WRITE) :
    pipe_write s pid fd bytes = (RW.wrongDirection, s) := by
  unfold pipe_write
  rw [h1]
  simp only [ne_eq, h2, not_false_eq_true, if_true]

theorem pipe_read_ok (s : SysState) (pid fd : Nat) (count : Nat)
    (i : Nat) (p : pipe_t) (cb : circular_buffer)
    (h1 : find_pipe s pid fd = some (i, p)) (h2 : p.dir = Direction.READ)
    (h6 : s.bufHeap.getD p.cb none = some cb) :
    pipe_read s pid fd count =
      (RW.ok ((read_loop cb count).1,
              (read_loop cb count).2.1.take (read_loop cb count).1.toNat),
       setBuf s p.cb (some (read_loop cb count).2.2)) := by
  unfold pipe_read
  rw [h1]
  simp only [h2, ne_eq, not_true_eq_false, if_false, h6]

theorem pipe_read_wrongdir (s : SysState) (pid fd : Nat) (count : Nat)
    (i : Nat) (p : pipe_t)
    (h1 : find_pipe s pid fd = some (i, p)) (h2 : p.dir ≠ Direction.READ) :
    pipe_read s pid fd count = (RW.wrongDirection, s) := by
  unfold pipe_read
  rw [h1]
  simp only [ne_eq, h2, not_false_eq_true, if_true]

theorem pipe_close_eq (s : SysState) (pid fd i : Nat) (p : pipe_t) (t : task_t)
    (h1 : find_pipe s pid fd = some (i, p)) (h3 : task_with_pid s pid = some t) :
    pipe_close s pid fd =
      pipe_close_rest
        (if p.dir = Direction.WRITE ∧ t.pipes.length = 1
         then (pipe_write s pid fd [EOF]).2 else s) pid i := by
  unfold pipe_close
  rw [h1, h3]

theorem pipe_close_rest_eq (s : SysState) (pid pi : Nat) (p : pipe_t) (t : task_t)
    (hp : s.pipeHeap.getD pi none = some p)
    (ht : task_with_pid s pid = some t)
    (hmem : pid ∈ p.pids) (hreg : pi ∈ t.pipes) :
    pipe_close_rest s pid pi = (CloseResult.ok, closeTeardown s pid pi p t) := by
  unfold pipe_close_rest closeTeardown closeBookkeep
  rw [hp, ht]
  by_cases he : p.pids.erase pid = []
  · simp only [if_pos hmem, if_pos hreg, he, ne_eq, not_true_eq_false, if_false, if_true]
  · simp only [if_pos hmem, if_pos hreg, he, ne_eq, not_false_eq_true, if_true, if_false]

theorem pipe_write_tasks (s : SysState) (pid fd : Nat) (bytes : List Int) :
    (pipe_write s pid fd bytes).2.tasks = s.tasks := by
  unfold pipe_write
  split
  · rfl
  · split
    · rfl
    · split
      · rfl
      · rfl

theorem pipe_write_pipeHeap (s : SysState) (pid fd : Nat) (bytes : List Int) :
    (pipe_write s pid fd bytes).2.pipeHeap = s.pipeHeap := by
  unfold pipe_write
  split
  · rfl
  · split
    · rfl
    · split
      · rfl
      · rfl

/-- Master characterization of a close whose descriptor resolves and whose
pid owns the endpoint: the result is ok and the final state is closeFinal. -/
theorem pipe_close_spec (s : SysState) (pid fd i : Nat) (p : pipe_t) (t : task_t)
    (h1 : find_pipe s pid fd = some (i, p))
    (h3 : task_with_pid s pid = some t)
    (h5 : pid ∈ p.pids) :
    pipe_close s pid fd = (CloseResult.ok, closeFinal s pid fd i p t) := by
  obtain ⟨hreg, hpheap, hfd⟩ := find_pipe_sound s pid fd i p t h1 h3
  rw [pipe_close_eq s pid fd i p t h1 h3]
  unfold closeFinal
  by_cases hc : p.dir = Direction.WRITE ∧ t.pipes.length = 1
  · rw [if_pos hc]
    refine pipe_close_rest_eq _ pid i p t ?_ ?_ h5 hreg
    · rw [pipe_write_pipeHeap]
      exact hpheap
    · rw [task_with_pid_congr s _ pid (pipe_write_tasks s pid fd [EOF])]
      exact h3
  · rw [if_neg hc]
    exact pipe_close_rest_eq s pid i p t hpheap h3 h5 hreg

/-! ## Claim theorems -/

/-- C6: calling write on a descriptor that resolves to a READ endpoint fails
with the wrong-direction error and returns the state unchanged (so the ring
buffer is untouched); symmetrically, read on a descriptor that resolves to a
WRITE endpoint fails the same way. -/
theorem wrong_direction_rejected (s : SysState) (pid fdr fdw ir iw : Nat)
    (pr pw : pipe_t) (bytes : List Int) (n : Nat)
    (hr : find_pipe s pid fdr = some (ir, pr)) (hdr : pr.dir = Direction.READ)
    (hw : find_pipe s pid fdw = some (iw, pw)) (hdw : pw.dir = Direction.WRITE) :
    pipe_write s pid fdr bytes = (RW.wrongDirection, s) ∧
    pipe_read s pid fdw n = (RW.wrongDirection, s) := by
  constructor
  · refine pipe_write_wrongdir s pid fdr bytes ir pr hr ?_
    rw [hdr]
    exact fun hcon => Direction.noConfusion hcon
  · refine pipe_read_wrongdir s pid fdw n iw pw hw ?_
    rw [hdw]
    exact fun hcon => Direction.noConfusion hcon

theorem wrong_direction_rejected_witness :
    pipe_write stateTwoEnds 0 3 [1] = (RW.wrongDirection, stateTwoEnds) ∧
    pipe_read stateTwoEnds 0 4 1 = (RW.wrongDirection, stateTwoEnds) :=
  wrong_direction_rejected stateTwoEnds 0 3 4 0 1
    ⟨Direction.READ, 3, [0], 0⟩ ⟨Direction.WRITE, 4, [0], 0⟩ [1] 1
    (by decide) (by decide) (by decide) (by decide)

/-- C10: when the bookkeeping tail of pipe_close takes the notRegistered
error return (the endpoint is absent from the process registry at removal
time), the current pid has already been removed from the endpoint's owner
list through the pipe pointer and that removal is not rolled back: the error
path does not leave the state unchanged. -/
theorem close_not_registered_keeps_owner_removal (s : SysState) (pid pi : Nat)
    (p : pipe_t) (t : task_t)
    (hp : s.pipeHeap.getD pi none = some p)
    (hmem : pid ∈ p.pids)
    (ht : task_with_pid s pid = some t)
    (hnr : pi ∉ t.pipes) :
    (pipe_close_rest s pid pi).1 = CloseResult.notRegistered ∧
    (pipe_close_rest s pid pi).2.pipeHeap.getD pi none
      = some { p with pids := p.pids.erase pid } ∧
    (pipe_close_rest s pid pi).2.pipeHeap.getD pi none ≠ some p := by
  have hred : pipe_close_rest s pid pi =
      (CloseResult.notRegistered,
       setPipe s pi (some { p with pids := p.pids.erase pid })) := by
    unfold pipe_close_rest
    rw [hp, ht]
    simp only [if_pos hmem, if_neg hnr]
  have hlt : pi < s.pipeHeap.length := getD_none_lt s.pipeHeap pi p hp
  have hget : (setPipe s pi (some { p with pids := p.pids.erase pid })).pipeHeap.getD pi none
      = some { p with pids := p.pids.erase pid } :=
    getD_set_self s.pipeHeap pi _ hlt
  refine ⟨by rw [hred], by rw [hred]; exact hget, ?_⟩
  rw [hred]
  intro hcon
  rw [hget] at hcon
  have heq : ({ p with pids := p.pids.erase pid } : pipe_t) = p := Option.some.inj hcon
  have hlen : (p.pids.erase pid).length = p.pids.length := by
    have := congrArg (fun q : pipe_t => q.pids.length) heq
    simpa using this
  have herase := List.length_erase_of_mem hmem
  have hpos : 0 < p.pids.length := List.length_pos_of_mem hmem
  omega

theorem close_not_registered_keeps_owner_removal_witness :
    (pipe_close_rest stateOrphan 0 0).1 = CloseResult.notRegistered ∧
    (pipe_close_rest stateOrphan 0 0).2.pipeHeap.getD 0 none
      = some { (⟨Direction.WRITE, 4, [0, 1], 0⟩ : pipe_t) with
                 pids := ([0, 1] : List Nat).erase 0 } ∧
    (pipe_close_rest stateOrphan 0 0).2.pipeHeap.getD 0 none
      ≠ some ⟨Direction.WRITE, 4, [0, 1], 0⟩ :=
  close_not_registered_keeps_owner_removal stateOrphan 0 0
    ⟨Direction.WRITE, 4, [0, 1], 0⟩ ⟨0, 9, [], 10⟩
    (by decide) (by decide) (by decide) (by decide)

/-- C4: evaluation of pipe_read at inputs exhibiting the sentinel-counting
bug.  The claim (and the spec's EOF-framing property) say the sentinel case
stops reading with only the sentinel byte uncounted, so a buffer holding
97, 98, EOF read with maxBytes 3 should yield 2 bytes, 97 and 98.  The code
(pipe.c line 99) decrements the loop index before breaking and then (line
103) writes the terminator over the last good byte, so it returns 1 with
only byte 97 delivered; when the sentinel is the first byte popped it
returns -1, colliding with the error return, after storing the terminator
out of bounds at buf[-1]. -/
theorem pipe_read_sentinel_miscount :
    (pipe_read stateReadBug 0 3 3).1 = RW.ok (1, [97]) ∧
    (pipe_read stateReadBugEofFirst 0 3 1).1 = RW.ok (-1, []) := by decide

/-- C8: when appending the two endpoints of a new pipe would exceed the
process registry's fixed max_size, pipe aborts (the unconditional ASSERT,
modelled as a none result) and the registry entries are untouched: the only
surviving task mutation is the fd_max bump that pipe_create already made. -/
theorem pipe_out_of_descriptors (s : SysState) (pid : Nat) (t : task_t)
    (h3 : task_with_pid s pid = some t)
    (hcap : t.pipes.length + 1 ≥ t.pipes_max_size) :
    pipe s pid = (none, (pipe_create s pid).2) ∧
    task_with_pid (pipe s pid).2 pid = some { t with fd_max := t.fd_max + 2 } := by
  have hpid2 : ({ t with fd_max := t.fd_max + 2 } : task_t).pid = pid := by
    simpa using task_with_pid_pid s pid t h3
  have htasks : (pipe_create s pid).2.tasks
      = (updateTask s pid { t with fd_max := t.fd_max + 2 }).tasks := by
    unfold pipe_create
    rw [h3]
  have hAfter : task_with_pid (pipe_create s pid).2 pid
      = some { t with fd_max := t.fd_max + 2 } := by
    rw [task_with_pid_congr (updateTask s pid { t with fd_max := t.fd_max + 2 })
      (pipe_create s pid).2 pid htasks]
    exact task_with_pid_updateTask s pid t _ h3 hpid2
  have hmain : pipe s pid = (none, (pipe_create s pid).2) := by
    simp only [pipe, h3, hAfter]
    rw [if_pos hcap]
  exact ⟨hmain, by rw [hmain]; exact hAfter⟩

theorem pipe_out_of_descriptors_witness :
    pipe stateFullRegistry 0 = (none, (pipe_create stateFullRegistry 0).2) ∧
    task_with_pid (pipe stateFullRegistry 0).2 0
      = some { (⟨0, 4, [0, 1], 3⟩ : task_t) with fd_max := 4 + 2 } :=
  pipe_out_of_descriptors stateFullRegistry 0 ⟨0, 4, [0, 1], 3⟩
    (by decide) (by decide)

/-- C5: for a WRITE descriptor whose shared buffer is the initially empty
capacity-64 buffer fixed by pipe_create, a single write of 64+K bytes
(K ≥ 1) returns exactly 64 as its bytes-written count, never more, and a
subsequent write on the same pipe before any read returns 0. -/
theorem write_capacity_bound (s : SysState) (pid fd i : Nat) (p : pipe_t)
    (bytes bytes2 : List Int) (K : Nat)
    (h1 : find_pipe s pid fd = some (i, p)) (h2 : p.dir = Direction.WRITE)
    (h6 : s.bufHeap.getD p.cb none = some ⟨64, []⟩)
    (hlen : bytes.length = 64 + K) (hK : 1 ≤ K) :
    (pipe_write s pid fd bytes).1 = RW.ok 64 ∧
    (pipe_write (pipe_write s pid fd bytes).2 pid fd bytes2).1 = RW.ok 0 := by
  have hw := pipe_write_ok s pid fd bytes i p ⟨64, []⟩ h1 h2 h6
  have hloop := write_loop_eq bytes ⟨64, []⟩ (by simp [circular_buffer.count])
  simp only [circular_buffer.count, List.length_nil, Nat.sub_zero,
    List.nil_append] at hloop
  have hmin : min 64 bytes.length = 64 := Nat.min_eq_left (by omega)
  rw [hmin] at hloop
  have hfst : (write_loop ⟨64, []⟩ bytes).1 = 64 := by rw [hloop]
  have hsnd : (write_loop ⟨64, []⟩ bytes).2 = ⟨64, bytes.take 64⟩ := by rw [hloop]
  have hlt : p.cb < s.bufHeap.length := getD_none_lt s.bufHeap p.cb ⟨64, []⟩ h6
  constructor
  · rw [hw, hfst]
  · have hbuf : (pipe_write s pid fd bytes).2.bufHeap.getD p.cb none
        = some ⟨64, bytes.take 64⟩ := by
      rw [hw]
      show (s.bufHeap.set p.cb (some (write_loop ⟨64, []⟩ bytes).2)).getD p.cb none = _
      rw [getD_set_self s.bufHeap p.cb _ hlt, hsnd]
    have hfind : find_pipe (pipe_write s pid fd bytes).2 pid fd = some (i, p) := by
      rw [find_pipe_congr s (pipe_write s pid fd bytes).2 pid fd
        (pipe_write_tasks s pid fd bytes) (pipe_write_pipeHeap s pid fd bytes)]
      exact h1
    have hfull : (⟨64, bytes.take 64⟩ : circular_buffer).count
        = (⟨64, bytes.take 64⟩ : circular_buffer).capacity := by
      show (bytes.take 64).length = 64
      rw [List.length_take]
      exact Nat.min_eq_left (by omega)
    have hw2 := pipe_write_ok (pipe_write s pid fd bytes).2 pid fd bytes2 i p
      ⟨64, bytes.take 64⟩ hfind h2 hbuf
    rw [hw2, write_loop_full _ bytes2 hfull]

theorem write_capacity_bound_witness :
    (pipe_write stateFresh 0 1 (List.replicate 70 5)).1 = RW.ok 64 ∧
    (pipe_write (pipe_write stateFresh 0 1 (List.replicate 70 5)).2 0 1 [9]).1
      = RW.ok 0 :=
  write_capacity_bound stateFresh 0 1 1 ⟨Direction.WRITE, 1, [0], 0⟩
    (List.replicate 70 5) [9] 6
    (by decide) (by decide) (by decide) (by decide) (by decide)

/-- C3, counterexample to the claim as stated: for the pipe returned by
create on a fresh task, the one-byte sequence consisting of the sentinel
value itself (a representable char, byte 0xFF) is accepted by write
(bytes-written 1), but reading 1 byte back does not return it: the read
stops on the sentinel and returns -1 with no bytes, so the endpoints do not
round-trip every byte sequence of length at most the capacity. -/
theorem pipe_roundtrip_sentinel_fails :
    (pipe state0 0).1 = some (0, 1) ∧
    (pipe_write stateFresh 0 1 [EOF]).1 = RW.ok 1 ∧
    (pipe_read (pipe_write stateFresh 0 1 [EOF]).2 0 0 1).1 = RW.ok (-1, []) ∧
    RW.ok ((-1 : Int), ([] : List Int)) ≠ RW.ok ((1 : Int), [EOF]) := by
  decide

/-- C3 (amended): for the configuration produced by create — a WRITE and a
READ endpoint sharing the empty capacity-64 buffer — writing N bytes
(N ≤ 64) none of which equals the end-of-stream sentinel and then reading N
bytes through the READ descriptor returns exactly those N bytes in order. -/
theorem pipe_roundtrip (s : SysState) (pid rfd wfd ri wi : Nat)
    (rp wp : pipe_t) (bytes : List Int)
    (hw : find_pipe s pid wfd = some (wi, wp)) (hdw : wp.dir = Direction.WRITE)
    (hr : find_pipe s pid rfd = some (ri, rp)) (hdr : rp.dir = Direction.READ)
    (hshare : rp.cb = wp.cb)
    (h6 : s.bufHeap.getD wp.cb none = some ⟨64, []⟩)
    (hlen : bytes.length ≤ 64) (hEOF : EOF ∉ bytes) :
    (pipe_write s pid wfd bytes).1 = RW.ok bytes.length ∧
    (pipe_read (pipe_write s pid wfd bytes).2 pid rfd bytes.length).1
      = RW.ok ((bytes.length : Int), bytes) := by
  have hwok := pipe_write_ok s pid wfd bytes wi wp ⟨64, []⟩ hw hdw h6
  have hloop := write_loop_eq bytes ⟨64, []⟩ (by simp [circular_buffer.count])
  simp only [circular_buffer.count, List.length_nil, Nat.sub_zero,
    List.nil_append] at hloop
  rw [Nat.min_eq_right hlen, List.take_of_length_le hlen] at hloop
  have hfst : (write_loop ⟨64, []⟩ bytes).1 = bytes.length := by rw [hloop]
  have hsnd : (write_loop ⟨64, []⟩ bytes).2 = ⟨64, bytes⟩ := by rw [hloop]
  have hlt : wp.cb < s.bufHeap.length := getD_none_lt s.bufHeap wp.cb ⟨64, []⟩ h6
  constructor
  · rw [hwok, hfst]
  · have hbuf : (pipe_write s pid wfd bytes).2.bufHeap.getD rp.cb none
        = some ⟨64, bytes⟩ := by
      rw [hshare, hwok]
      show (s.bufHeap.set wp.cb (some (write_loop ⟨64, []⟩ bytes).2)).getD wp.cb none = _
      rw [getD_set_self s.bufHeap wp.cb _ hlt, hsnd]
    have hfind : find_pipe (pipe_write s pid wfd bytes).2 pid rfd = some (ri, rp) := by
      rw [find_pipe_congr s (pipe_write s pid wfd bytes).2 pid rfd
        (pipe_write_tasks s pid wfd bytes) (pipe_write_pipeHeap s pid wfd bytes)]
      exact hr
    have hrok := pipe_read_ok (pipe_write s pid wfd bytes).2 pid rfd bytes.length
      ri rp ⟨64, bytes⟩ hfind hdr hbuf
    rw [hrok, read_loop_no_eof 64 bytes hEOF]
    simp only [Int.toNat_natCast, List.take_length]

theorem pipe_roundtrip_witness :
    (pipe_write stateFresh 0 1 [10, 20, 30]).1 = RW.ok ([10, 20, 30] : List Int).length ∧
    (pipe_read (pipe_write stateFresh 0 1 [10, 20, 30]).2 0 0
        ([10, 20, 30] : List Int).length).1
      = RW.ok ((([10, 20, 30] : List Int).length : Int), [10, 20, 30]) :=
  pipe_roundtrip stateFresh 0 0 1 0 1
    ⟨Direction.READ, 0, [0], 0⟩ ⟨Direction.WRITE, 1, [0], 0⟩ [10, 20, 30]
    (by decide) (by decide) (by decide) (by decide) (by decide) (by decide)
    (by decide) (by decide)

/-! ### Facts about the close teardown states -/

theorem closeTeardown_bufHeap (s1 : SysState) (pid i : Nat) (p : pipe_t)
    (t : task_t) (hdir : p.dir = Direction.WRITE) :
    (closeTeardown s1 pid i p t).bufHeap = s1.bufHeap := by
  have hnr : p.dir ≠ Direction.READ := by
    rw [hdir]
    exact fun hcon => Direction.noConfusion hcon
  unfold closeTeardown
  by_cases he : p.pids.erase pid = []
  · rw [if_pos he, if_neg hnr]
    rfl
  · rw [if_neg he]
    rfl

theorem closeTeardown_bufHeap_alive (s1 : SysState) (pid i : Nat) (p : pipe_t)
    (t : task_t) (he : p.pids.erase pid ≠ []) :
    (closeTeardown s1 pid i p t).bufHeap = s1.bufHeap := by
  unfold closeTeardown
  rw [if_neg he]
  rfl

theorem closeTeardown_bufHeap_read_dead (s1 : SysState) (pid i : Nat)
    (p : pipe_t) (t : task_t) (he : p.pids.erase pid = [])
    (hd : p.dir = Direction.READ) :
    (closeTeardown s1 pid i p t).bufHeap = s1.bufHeap.set p.cb none := by
  unfold closeTeardown
  rw [if_pos he, if_pos hd]
  rfl

theorem closeTeardown_tasks (s1 : SysState) (pid i : Nat) (p : pipe_t)
    (t : task_t) :
    (closeTeardown s1 pid i p t).tasks
      = tasks_update s1.tasks pid { t with pipes := t.pipes.erase i } := by
  unfold closeTeardown
  by_cases he : p.pids.erase pid = []
  · rw [if_pos he]
    by_cases hd : p.dir = Direction.READ
    · rw [if_pos hd]
      rfl
    · rw [if_neg hd]
      rfl
  · rw [if_neg he]
    rfl

theorem closeTeardown_pipe_dead (s1 : SysState) (pid i : Nat) (p : pipe_t)
    (t : task_t) (he : p.pids.erase pid = []) (hlt : i < s1.pipeHeap.length) :
    (closeTeardown s1 pid i p t).pipeHeap.getD i none = none := by
  unfold closeTeardown
  rw [if_pos he]
  by_cases hd : p.dir = Direction.READ
  · rw [if_pos hd]
    show ((s1.pipeHeap.set i (some { p with pids := p.pids.erase pid })).set i
      none).getD i none = none
    exact getD_set_self _ i none (by simpa using hlt)
  · rw [if_neg hd]
    show ((s1.pipeHeap.set i (some { p with pids := p.pids.erase pid })).set i
      none).getD i none = none
    exact getD_set_self _ i none (by simpa using hlt)

theorem closeTeardown_pipe_alive (s1 : SysState) (pid i : Nat) (p : pipe_t)
    (t : task_t) (he : p.pids.erase pid ≠ []) (hlt : i < s1.pipeHeap.length) :
    (closeTeardown s1 pid i p t).pipeHeap.getD i none
      = some { p with pids := p.pids.erase pid } := by
  unfold closeTeardown
  rw [if_neg he]
  show (s1.pipeHeap.set i (some { p with pids := p.pids.erase pid })).getD i none = _
  exact getD_set_self _ i _ hlt

theorem closeS1_pipeHeap (s : SysState) (pid fd : Nat) (p : pipe_t) (t : task_t) :
    (if p.dir = Direction.WRITE ∧ t.pipes.length = 1
     then (pipe_write s pid fd [EOF]).2 else s).pipeHeap = s.pipeHeap := by
  by_cases hcnd : p.dir = Direction.WRITE ∧ t.pipes.length = 1
  · rw [if_pos hcnd]
    exact pipe_write_pipeHeap s pid fd [EOF]
  · rw [if_neg hcnd]

theorem pipe_write_buf (s : SysState) (pid fd : Nat) (bytes : List Int)
    (i : Nat) (p : pipe_t) (cb : circular_buffer)
    (h1 : find_pipe s pid fd = some (i, p)) (h2 : p.dir = Direction.WRITE)
    (h6 : s.bufHeap.getD p.cb none = some cb) :
    (pipe_write s pid fd bytes).2.bufHeap.getD p.cb none
      = some (write_loop cb bytes).2 := by
  rw [pipe_write_ok s pid fd bytes i p cb h1 h2 h6]
  show (s.bufHeap.set p.cb (some (write_loop cb bytes).2)).getD p.cb none = _
  exact getD_set_self s.bufHeap p.cb _ (getD_none_lt s.bufHeap p.cb cb h6)

/-- C1: for a close of a WRITE endpoint when the last-writer condition holds
(the current process's pipe registry has exactly one entry, which is the
condition the code tests), the sentinel is written through the ordinary
pipe_write path against the still-intact registry — so its descriptor
resolution succeeds — strictly before the endpoint is removed from the owner
set or the registry: close's final buffer heap is exactly the buffer heap
produced by that write (with the sentinel appended whenever the buffer had
room), and afterwards the descriptor no longer resolves. -/
theorem close_write_sentinel_before_removal (s : SysState) (pid fd i : Nat)
    (p : pipe_t) (t : task_t) (cb : circular_buffer)
    (h1 : find_pipe s pid fd = some (i, p)) (h2 : p.dir = Direction.WRITE)
    (h3 : task_with_pid s pid = some t) (h4 : t.pipes.length = 1)
    (h5 : pid ∈ p.pids) (h6 : s.bufHeap.getD p.cb none = some cb) :
    (∃ n, (pipe_write s pid fd [EOF]).1 = RW.ok n) ∧
    (pipe_close s pid fd).1 = CloseResult.ok ∧
    (pipe_close s pid fd).2.bufHeap = (pipe_write s pid fd [EOF]).2.bufHeap ∧
    (cb.count < cb.capacity →
      (pipe_close s pid fd).2.bufHeap.getD p.cb none
        = some ⟨cb.capacity, cb.data ++ [EOF]⟩) ∧
    find_pipe (pipe_close s pid fd).2 pid fd = none := by
  obtain ⟨hreg, hpheap, hfd⟩ := find_pipe_sound s pid fd i p t h1 h3
  have hspec := pipe_close_spec s pid fd i p t h1 h3 h5
  have hsnd : (pipe_close s pid fd).2 = closeFinal s pid fd i p t := by rw [hspec]
  have hwok := pipe_write_ok s pid fd [EOF] i p cb h1 h2 h6
  have hcond : p.dir = Direction.WRITE ∧ t.pipes.length = 1 := ⟨h2, h4⟩
  have hfinal : closeFinal s pid fd i p t
      = closeTeardown (pipe_write s pid fd [EOF]).2 pid i p t := by
    unfold closeFinal
    rw [if_pos hcond]
  have hbufeq : (pipe_close s pid fd).2.bufHeap
      = (pipe_write s pid fd [EOF]).2.bufHeap := by
    rw [hsnd, hfinal]
    exact closeTeardown_bufHeap _ pid i p t h2
  refine ⟨⟨(write_loop cb [EOF]).1, by rw [hwok]⟩, by rw [hspec], hbufeq, ?_, ?_⟩
  · intro hroom
    have hne2 : cb.count ≠ cb.capacity := Nat.ne_of_lt hroom
    have hpush : write_loop cb [EOF] = (1, ⟨cb.capacity, cb.data ++ [EOF]⟩) := by
      simp only [write_loop]
      rw [if_neg hne2]
      rfl
    rw [hbufeq, pipe_write_buf s pid fd [EOF] i p cb h1 h2 h6, hpush]
  · have hpipes : t.pipes = [i] := length_one_mem t.pipes i h4 hreg
    have herase : t.pipes.erase i = [] := by
      rw [hpipes]
      simp
    have htfinal : task_with_pid (pipe_close s pid fd).2 pid
        = some { t with pipes := t.pipes.erase i } := by
      rw [hsnd, hfinal]
      unfold task_with_pid
      rw [closeTeardown_tasks _ pid i p t, pipe_write_tasks]
      exact tasks_find_update s.tasks pid t _ h3
        (by simpa using task_with_pid_pid s pid t h3)
    simp only [find_pipe, htfinal, herase, find_pipe_go]

theorem close_write_sentinel_before_removal_witness :
    (∃ n, (pipe_write stateLastWriter 0 4 [EOF]).1 = RW.ok n) ∧
    (pipe_close stateLastWriter 0 4).1 = CloseResult.ok ∧
    (pipe_close stateLastWriter 0 4).2.bufHeap
      = (pipe_write stateLastWriter 0 4 [EOF]).2.bufHeap ∧
    (1 < 64 →
      (pipe_close stateLastWriter 0 4).2.bufHeap.getD 0 none
        = some ⟨64, [7, EOF]⟩) ∧
    find_pipe (pipe_close stateLastWriter 0 4).2 0 4 = none :=
  close_write_sentinel_before_removal stateLastWriter 0 4 1
    ⟨Direction.WRITE, 4, [0], 0⟩ ⟨0, 9, [1], 10⟩ ⟨64, [7]⟩
    (by decide) (by decide) (by decide) (by decide) (by decide) (by decide)

/-- C2: a close that empties the endpoint's owner set destroys the endpoint
itself, and the shared ring buffer is released if and only if the endpoint
being destroyed is a READ endpoint: an ownerless WRITE endpoint is freed but
leaves the buffer alive, an ownerless READ endpoint frees it. -/
theorem close_last_owner_teardown (s : SysState) (pid fd i : Nat) (p : pipe_t)
    (t : task_t) (cb : circular_buffer)
    (h1 : find_pipe s pid fd = some (i, p))
    (h3 : task_with_pid s pid = some t)
    (hp : p.pids = [pid])
    (h6 : s.bufHeap.getD p.cb none = some cb) :
    (pipe_close s pid fd).1 = CloseResult.ok ∧
    (pipe_close s pid fd).2.pipeHeap.getD i none = none ∧
    ((pipe_close s pid fd).2.bufHeap.getD p.cb none = none
      ↔ p.dir = Direction.READ) := by
  have h5 : pid ∈ p.pids := by
    rw [hp]
    exact List.mem_singleton_self pid
  have he : p.pids.erase pid = [] := by
    rw [hp]
    simp
  obtain ⟨hreg, hpheap, hfd⟩ := find_pipe_sound s pid fd i p t h1 h3
  have hspec := pipe_close_spec s pid fd i p t h1 h3 h5
  have hsnd : (pipe_close s pid fd).2 = closeFinal s pid fd i p t := by rw [hspec]
  have hlt : i < s.pipeHeap.length := getD_none_lt s.pipeHeap i p hpheap
  have hblt : p.cb < s.bufHeap.length := getD_none_lt s.bufHeap p.cb cb h6
  refine ⟨by rw [hspec], ?_, ?_⟩
  · rw [hsnd]
    have hlt1 : i < (if p.dir = Direction.WRITE ∧ t.pipes.length = 1
        then (pipe_write s pid fd [EOF]).2 else s).pipeHeap.length := by
      rw [closeS1_pipeHeap]
      exact hlt
    exact closeTeardown_pipe_dead _ pid i p t he hlt1
  · cases hdir : p.dir with
    | READ =>
      have hcnd : ¬(p.dir = Direction.WRITE ∧ t.pipes.length = 1) := by
        rw [hdir]
        rintro ⟨hcon, -⟩
        exact Direction.noConfusion hcon
      have hfin : closeFinal s pid fd i p t = closeTeardown s pid i p t := by
        unfold closeFinal
        rw [if_neg hcnd]
      rw [hsnd, hfin]
      have hb := closeTeardown_bufHeap_read_dead s pid i p t he hdir
      rw [show (closeTeardown s pid i p t).bufHeap.getD p.cb none
            = (s.bufHeap.set p.cb none).getD p.cb none from by rw [hb]]
      rw [getD_set_self s.bufHeap p.cb none hblt]
      simp
    | WRITE =>
      have hbufeq : (closeFinal s pid fd i p t).bufHeap
          = (if p.dir = Direction.WRITE ∧ t.pipes.length = 1
             then (pipe_write s pid fd [EOF]).2 else s).bufHeap := by
        unfold closeFinal
        exact closeTeardown_bufHeap _ pid i p t hdir
      rw [hsnd]
      rw [show (closeFinal s pid fd i p t).bufHeap.getD p.cb none
            = (if p.dir = Direction.WRITE ∧ t.pipes.length = 1
               then (pipe_write s pid fd [EOF]).2 else s).bufHeap.getD p.cb none
          from by rw [hbufeq]]
      by_cases hcnd : p.dir = Direction.WRITE ∧ t.pipes.length = 1
      · rw [if_pos hcnd, pipe_write_buf s pid fd [EOF] i p cb h1 hdir h6]
        simp
      · rw [if_neg hcnd, h6]
        simp

theorem close_last_owner_teardown_witness :
    ((pipe_close stateTwoEnds 0 3).1 = CloseResult.ok ∧
     (pipe_close stateTwoEnds 0 3).2.pipeHeap.getD 0 none = none ∧
     ((pipe_close stateTwoEnds 0 3).2.bufHeap.getD 0 none = none
       ↔ Direction.READ = Direction.READ)) ∧
    ((pipe_close stateTwoEnds 0 4).1 = CloseResult.ok ∧
     (pipe_close stateTwoEnds 0 4).2.pipeHeap.getD 1 none = none ∧
     ((pipe_close stateTwoEnds 0 4).2.bufHeap.getD 0 none = none
       ↔ Direction.WRITE = Direction.READ)) :=
  ⟨close_last_owner_teardown stateTwoEnds 0 3 0 ⟨Direction.READ, 3, [0], 0⟩
      ⟨0, 9, [0, 1], 10⟩ ⟨64, []⟩ (by decide) (by decide) (by decide) (by decide),
   close_last_owner_teardown stateTwoEnds 0 4 1 ⟨Direction.WRITE, 4, [0], 0⟩
      ⟨0, 9, [0, 1], 10⟩ ⟨64, []⟩ (by decide) (by decide) (by decide) (by decide)⟩

/-- C7, counterexample to the claim as stated: in a state where the WRITE
endpoint fd 5 is owned by processes 0 and 1 and process 0's registry holds
only this endpoint, process 0's close leaves the owner set non-empty (so the
endpoint survives), yet the shared ring buffer is touched: the EOF sentinel
is written into it, changing its contents from empty to one sentinel byte. -/
theorem close_remaining_owner_touches_buffer :
    (pipe_close stateShared 0 5).1 = CloseResult.ok ∧
    (pipe_close stateShared 0 5).2.pipeHeap.getD 0 none
      = some ⟨Direction.WRITE, 5, [1], 0⟩ ∧
    stateShared.bufHeap.getD 0 none = some ⟨64, []⟩ ∧
    (pipe_close stateShared 0 5).2.bufHeap.getD 0 none = some ⟨64, [EOF]⟩ ∧
    some (⟨64, [EOF]⟩ : circular_buffer) ≠ some (⟨64, []⟩ : circular_buffer) := by
  decide

/-- C7 (amended): a close that leaves the endpoint's owner set non-empty
returns without destroying the endpoint and without releasing the shared
ring buffer, which stays untouched except in one case: when the endpoint is
a WRITE endpoint and the closing process's registry holds exactly one entry,
the EOF sentinel is first written into the buffer through the normal write
path.  The endpoint survives with exactly the closing pid removed. -/
theorem close_remaining_owner_keeps_endpoint (s : SysState) (pid fd i : Nat)
    (p : pipe_t) (t : task_t) (cb : circular_buffer)
    (h1 : find_pipe s pid fd = some (i, p))
    (h3 : task_with_pid s pid = some t)
    (h5 : pid ∈ p.pids)
    (hne : p.pids.erase pid ≠ [])
    (h6 : s.bufHeap.getD p.cb none = some cb) :
    (pipe_close s pid fd).1 = CloseResult.ok ∧
    (pipe_close s pid fd).2.pipeHeap.getD i none
      = some { p with pids := p.pids.erase pid } ∧
    (pipe_close s pid fd).2.bufHeap.getD p.cb none ≠ none ∧
    (¬(p.dir = Direction.WRITE ∧ t.pipes.length = 1) →
      (pipe_close s pid fd).2.bufHeap = s.bufHeap) := by
  obtain ⟨hreg, hpheap, hfd⟩ := find_pipe_sound s pid fd i p t h1 h3
  have hspec := pipe_close_spec s pid fd i p t h1 h3 h5
  have hsnd : (pipe_close s pid fd).2 = closeFinal s pid fd i p t := by rw [hspec]
  have hlt : i < s.pipeHeap.length := getD_none_lt s.pipeHeap i p hpheap
  have hbufeq : (closeFinal s pid fd i p t).bufHeap
      = (if p.dir = Direction.WRITE ∧ t.pipes.length = 1
         then (pipe_write s pid fd [EOF]).2 else s).bufHeap := by
    unfold closeFinal
    exact closeTeardown_bufHeap_alive _ pid i p t hne
  refine ⟨by rw [hspec], ?_, ?_, ?_⟩
  · rw [hsnd]
    have hlt1 : i < (if p.dir = Direction.WRITE ∧ t.pipes.length = 1
        then (pipe_write s pid fd [EOF]).2 else s).pipeHeap.length := by
      rw [closeS1_pipeHeap]
      exact hlt
    exact closeTeardown_pipe_alive _ pid i p t hne hlt1
  · rw [hsnd]
    rw [show (closeFinal s pid fd i p t).bufHeap.getD p.cb none
          = (if p.dir = Direction.WRITE ∧ t.pipes.length = 1
             then (pipe_write s pid fd [EOF]).2 else s).bufHeap.getD p.cb none
        from by rw [hbufeq]]
    by_cases hcnd : p.dir = Direction.WRITE ∧ t.pipes.length = 1
    · rw [if_pos hcnd, pipe_write_buf s pid fd [EOF] i p cb h1 hcnd.1 h6]
      exact Option.some_ne_none _
    · rw [if_neg hcnd, h6]
      exact Option.some_ne_none _
  · intro hcnd
    rw [hsnd, hbufeq, if_neg hcnd]

theorem close_remaining_owner_keeps_endpoint_witness :
    (pipe_close stateShared 0 5).1 = CloseResult.ok ∧
    (pipe_close stateShared 0 5).2.pipeHeap.getD 0 none
      = some ⟨Direction.WRITE, 5, [1], 0⟩ ∧
    (pipe_close stateShared 0 5).2.bufHeap.getD 0 none ≠ none ∧
    (¬(Direction.WRITE = Direction.WRITE ∧ (1 : Nat) = 1) →
      (pipe_close stateShared 0 5).2.bufHeap = stateShared.bufHeap) :=
  close_remaining_owner_keeps_endpoint stateShared 0 5 0
    ⟨Direction.WRITE, 5, [0, 1], 0⟩ ⟨0, 9, [0], 10⟩ ⟨64, []⟩
    (by decide) (by decide) (by decide) (by decide) (by decide)

/-- C9: for a close of a WRITE endpoint where the last-writer condition
holds but the shared ring buffer is already full, the sentinel is silently
dropped: the internal pipe_write returns a short-write count of 0, close
ignores it and completes with ok, and the buffer contents are unchanged, so
no end-of-stream marker is ever delivered to the reader. -/
theorem close_full_buffer_drops_sentinel (s : SysState) (pid fd i : Nat)
    (p : pipe_t) (t : task_t) (cb : circular_buffer)
    (h1 : find_pipe s pid fd = some (i, p)) (h2 : p.dir = Direction.WRITE)
    (h3 : task_with_pid s pid = some t) (h4 : t.pipes.length = 1)
    (h5 : pid ∈ p.pids) (h6 : s.bufHeap.getD p.cb none = some cb)
    (hfull : cb.count = cb.capacity) :
    (pipe_write s pid fd [EOF]).1 = RW.ok 0 ∧
    (pipe_close s pid fd).1 = CloseResult.ok ∧
    (pipe_close s pid fd).2.bufHeap.getD p.cb none = some cb := by
  have hwok := pipe_write_ok s pid fd [EOF] i p cb h1 h2 h6
  have hspec := pipe_close_spec s pid fd i p t h1 h3 h5
  have hsnd : (pipe_close s pid fd).2 = closeFinal s pid fd i p t := by rw [hspec]
  have hloopfull := write_loop_full cb [EOF] hfull
  have hcnd : p.dir = Direction.WRITE ∧ t.pipes.length = 1 := ⟨h2, h4⟩
  refine ⟨by rw [hwok, hloopfull], by rw [hspec], ?_⟩
  have hb : (closeFinal s pid fd i p t).bufHeap
      = (pipe_write s pid fd [EOF]).2.bufHeap := by
    unfold closeFinal
    rw [if_pos hcnd]
    exact closeTeardown_bufHeap _ pid i p t h2
  rw [hsnd]
  rw [show (closeFinal s pid fd i p t).bufHeap.getD p.cb none
        = (pipe_write s pid fd [EOF]).2.bufHeap.getD p.cb none from by rw [hb]]
  rw [pipe_write_buf s pid fd [EOF] i p cb h1 h2 h6, hloopfull]

theorem close_full_buffer_drops_sentinel_witness :
    (pipe_write stateFullWriter 0 4 [EOF]).1 = RW.ok 0 ∧
    (pipe_close stateFullWriter 0 4).1 = CloseResult.ok ∧
    (pipe_close stateFullWriter 0 4).2.bufHeap.getD 0 none = some ⟨2, [7, 8]⟩ :=
  close_full_buffer_drops_sentinel stateFullWriter 0 4 1
    ⟨Direction.WRITE, 4, [0], 0⟩ ⟨0, 9, [1], 10⟩ ⟨2, [7, 8]⟩
    (by decide) (by decide) (by decide) (by decide) (by decide) (by decide)
    (by decide)

end Axle
